import Mathlib

/-!
Shallow embedding of the `file-event-manager` repository
(`src/path_event_to_task`), covering:

* `asynchronous/validator.py`: `BaseValidator`, `FileValidator`,
  `FolderValidator`, `CompositeValidator`;
* `asynchronous/processor.py`: `EventProcessor.process_events`;
* `synchronous/event_handler.py`: the directory-polling `validate` of
  `TestDataEventHandler` / `LastShotEventHandler`.

Modelling conventions:

* The filesystem is a static snapshot `FS := String -> Option FileStat`
  (`none` = path does not exist).  `datetime` values and file sizes are
  integers (POSIX-timestamp view of `datetime`); `Path(path_input)` is
  modelled as the path string itself, and `Path.name` as the last
  nonempty `/`-separated component.
* A compiled regex is modelled abstractly as a `NamePattern`: the source
  pattern string together with its `search` predicate on strings.
* Python dicts with string keys are association lists (`Dict`) whose
  `insert` overwrites an existing binding, so `update` gives later keys
  precedence, as `dict.update` does.
* Fallible Python code is `Except String`: `.error` is an uncaught
  exception escaping the call (e.g. `stat` on a missing path),
  `.ok (b, d)` the structured `(bool, dict)` return value.
* Messages built with Python f-strings are interpolated `String`s;
  the quoting of interpolated values is simplified (no surrounding
  quote characters) since no claim depends on it.
-/

/-- Values stored in the `info` dictionaries returned by validators. -/
inductive Value where
  | vbool (b : Bool)
  | vint (n : Int)
  | vtime (t : Int)
  | vstr (s : String)
  deriving DecidableEq, Repr

/-- `str()` of a dict value, as used by `EventProcessor` before enqueuing. -/
def Value.pyStr : Value → String
  | .vbool b => if b then "True" else "False"
  | .vint n => toString n
  | .vtime t => toString t
  | .vstr s => s

/-- A Python dict with string keys, as an association list. -/
def Dict : Type := List (String × Value)

instance : DecidableEq Dict := by
  unfold Dict
  infer_instance

/-- The empty dict `{}`. -/
def Dict.empty : Dict := []

/-- `d[k] = v`: overwrite any existing binding of `k`. -/
def Dict.insert (d : Dict) (k : String) (v : Value) : Dict :=
  (List.filter (fun kv => kv.1 ≠ k) d) ++ [(k, v)]

/-- `d.get(k)` without default: `none` when the key is absent. -/
def Dict.get? (d : Dict) (k : String) : Option Value :=
  List.lookup k d

/-- `d.update(e)`: add all bindings of `e`, later keys overwriting. -/
def Dict.update (d e : Dict) : Dict :=
  List.foldl (fun acc kv => Dict.insert acc kv.1 kv.2) d e

/-- A dict `{"error": msg}`, the shape of every validator rejection. -/
def errDict (msg : String) : Dict :=
  Dict.empty.insert "error" (.vstr msg)

/-- The result of `os.stat` on an existing path. -/
structure FileStat where
  is_file : Bool
  is_dir : Bool
  st_birthtime : Option Int
  st_ctime : Int
  st_mtime : Int
  st_size : Int
  deriving DecidableEq, Repr

/-- A filesystem snapshot: `none` means the path does not exist. -/
def FS : Type := String → Option FileStat

/-- `Path(p).name`: the last nonempty `/`-separated component. -/
def pathName (p : String) : String :=
  (List.filter (fun s => s ≠ "") (p.splitOn "/")).getLastD ""

/-- A compiled `re` pattern: its source text and its `search` predicate. -/
structure NamePattern where
  pattern : String
  search : String → Bool

/-- `BaseValidator.__init__` state (validator.py lines 17-30). -/
structure BaseValidator where
  name_pattern : Option NamePattern
  creation_date_min : Option Int
  creation_date_max : Option Int
  modified_date_min : Option Int
  modified_date_max : Option Int

/-- `BaseValidator.get_creation_time` (validator.py lines 32-36):
`path.stat()` raises on a missing path; otherwise `st_birthtime` when
available, falling back to `st_ctime`. -/
def BaseValidator.get_creation_time (fs : FS) (p : String) : Except String Int :=
  match fs p with
  | none => .error s!"FileNotFoundError: {p}"
  | some st => .ok (st.st_birthtime.getD st.st_ctime)

/-- `BaseValidator.validate_common` (validator.py lines 38-73): name
pattern against `path.name`, then creation-date range, then
modified-date range, each failing check returning `(False, {error})`
at once.  The `let`-bound continuations mirror the early returns of
the Python control flow. -/
def BaseValidator.validate_common (v : BaseValidator) (fs : FS) (p : String) :
    Except String (Bool × Dict) :=
  let name := pathName p
  let afterName : Dict → Except String (Bool × Dict) := fun info =>
    match fs p with
    | none => .error s!"FileNotFoundError: {p}"
    | some st =>
      let creation_time := st.st_birthtime.getD st.st_ctime
      let info := info.insert "creation_time" (.vtime creation_time)
      let afterCreation : Except String (Bool × Dict) :=
        let modified_time := st.st_mtime
        let info := info.insert "modified_time" (.vtime modified_time)
        let checkMMax : Except String (Bool × Dict) :=
          match v.modified_date_max with
          | some mx =>
            if modified_time > mx then
              .ok (false, errDict
                s!"Modified time {modified_time} is after maximum allowed {mx}.")
            else .ok (true, info)
          | none => .ok (true, info)
        match v.modified_date_min with
        | some mn =>
          if modified_time < mn then
            .ok (false, errDict
              s!"Modified time {modified_time} is before minimum allowed {mn}.")
          else checkMMax
        | none => checkMMax
      let checkCMax : Except String (Bool × Dict) :=
        match v.creation_date_max with
        | some mx =>
          if creation_time > mx then
            .ok (false, errDict
              s!"Creation time {creation_time} is after maximum allowed {mx}.")
          else afterCreation
        | none => afterCreation
      match v.creation_date_min with
      | some mn =>
        if creation_time < mn then
          .ok (false, errDict
            s!"Creation time {creation_time} is before minimum allowed {mn}.")
        else checkCMax
      | none => checkCMax
  match v.name_pattern with
  | some np =>
    if !(np.search name) then
      let pat := np.pattern
      .ok (false, errDict s!"Name {name} does not match pattern {pat}.")
    else
      afterName (Dict.empty.insert "name_valid" (.vbool true))
  | none => afterName Dict.empty

/-- `FileValidator.__init__` state (validator.py lines 82-107). -/
structure FileValidator extends BaseValidator where
  filesize_min : Option Int
  filesize_max : Option Int

/-- `FileValidator.validate` (validator.py lines 109-148): existence,
regular-file test, the common checks, then the size-range check. -/
def FileValidator.validate (v : FileValidator) (fs : FS) (p : String) :
    Except String (Bool × Dict) :=
  match fs p with
  | none => .ok (false, errDict s!"Path {p} does not exist.")
  | some st =>
    if !st.is_file then
      .ok (false, errDict s!"Path {p} is not a file.")
    else
      match v.toBaseValidator.validate_common fs p with
      | .error e => .error e
      | .ok (false, common_info) => .ok (false, common_info)
      | .ok (true, common_info) =>
        let info := Dict.update Dict.empty common_info
        let filesize := st.st_size
        let info := info.insert "filesize" (.vint filesize)
        let checkMax : Except String (Bool × Dict) :=
          match v.filesize_max with
          | some mx =>
            if filesize > mx then
              .ok (false, errDict
                s!"Filesize {filesize} is greater than maximum allowed {mx}.")
            else .ok (true, info)
          | none => .ok (true, info)
        match v.filesize_min with
        | some mn =>
          if filesize < mn then
            .ok (false, errDict
              s!"Filesize {filesize} is less than minimum allowed {mn}.")
          else checkMax
        | none => checkMax

/-- `FolderValidator` (validator.py lines 154-181): existence,
directory test, then the common checks. -/
structure FolderValidator extends BaseValidator

/-- `FolderValidator.validate` (validator.py lines 155-181). -/
def FolderValidator.validate (v : FolderValidator) (fs : FS) (p : String) :
    Except String (Bool × Dict) :=
  match fs p with
  | none => .ok (false, errDict s!"Path {p} does not exist.")
  | some st =>
    if !st.is_dir then
      .ok (false, errDict s!"Path {p} is not a folder.")
    else
      match v.toBaseValidator.validate_common fs p with
      | .error e => .error e
      | .ok (false, common_info) => .ok (false, common_info)
      | .ok (true, common_info) =>
        let info := Dict.update Dict.empty common_info
        .ok (true, info)

/-- The duck-typed validator interface used by `CompositeValidator` and
`EventProcessor`: a `validate(path_input)` call against a filesystem. -/
def ValidatorFun : Type := FS → String → Except String (Bool × Dict)

/-- The loop body of `CompositeValidator.validate` (validator.py lines
201-207), carrying the accumulated `combined_info`. -/
def CompositeValidator.validateFrom (fs : FS) (p : String) :
    List ValidatorFun → Dict → Except String (Bool × Dict)
  | [], combined_info => .ok (true, combined_info)
  | vf :: rest, combined_info =>
    match vf fs p with
    | .error e => .error e
    | .ok (false, info) => .ok (false, info)
    | .ok (true, info) =>
      CompositeValidator.validateFrom fs p rest (combined_info.update info)

/-- `CompositeValidator.validate` (validator.py lines 193-207). -/
def CompositeValidator.validate (validators : List ValidatorFun) (fs : FS) (p : String) :
    Except String (Bool × Dict) :=
  CompositeValidator.validateFrom fs p validators Dict.empty

/-- A watchdog filesystem event, as consumed by the processor and the
synchronous handlers. -/
structure PEvent where
  src_path : String
  is_directory : Bool
  deriving DecidableEq, Repr

/-- `EventProcessor` state (processor.py lines 18-38).  The validator is
the duck-typed synchronous `validate(path_input) -> (bool, dict)` bound
to the ambient filesystem; `has_buffer` records whether `buffer` is not
`None` (the puts it receives are collected in the results below);
`process_delay` only gates an `asyncio.sleep` and has no effect on the
values produced. -/
structure EventProcessor where
  validator : Option (String → Bool × Dict)
  has_buffer : Bool
  process_delay : Rat

/-- One iteration of `EventProcessor.process_events` (processor.py
lines 48-78) for a single dequeued event: the list of items put into
the buffer (empty or a singleton) and the number of `task_done` calls
issued during that iteration. -/
def EventProcessor.processOne (pr : EventProcessor) (event : PEvent) :
    List String × Nat :=
  let afterValidation : Dict → List String × Nat := fun info =>
    if !pr.has_buffer then
      ([], 1)
    else
      let folder_name := (info.get? "new_folder").getD (.vstr event.src_path)
      ([folder_name.pyStr], 1)
  match pr.validator with
  | some vf =>
    let r := vf event.src_path
    if !r.1 then ([], 1)
    else afterValidation r.2
  | none => afterValidation Dict.empty

/-- `process_events` run over a finite prefix of the event queue:
concatenated buffer puts (in arrival order) and total `task_done`
count. -/
def EventProcessor.process_events (pr : EventProcessor) (events : List PEvent) :
    List String × Nat :=
  List.foldl (fun acc event =>
    let r := pr.processOne event
    (acc.1 ++ r.1, acc.2 + r.2)) ([], 0) events

/-- One directory entry seen by `os.listdir` during a polling
iteration: its name, and the content that `open(...).read()` yields
(`none` models an `OSError`, which the handler catches and skips). -/
structure DirEntry where
  name : String
  content : Option String
  deriving DecidableEq, Repr

/-- One pass of the inner `for file in os.listdir(...)` loop of the
synchronous handlers: true iff some entry named `ShotLog.json` opens
successfully with nonempty content.  An empty read falls through to
the next entry; an `OSError` is caught and skipped. -/
def iterFindsShotLog (listing : List DirEntry) : Bool :=
  listing.any fun e =>
    e.name == "ShotLog.json" &&
      (match e.content with
       | some c => !(c == "")
       | none => false)

/-- The `while time.time() - start_time < timeout` polling loop of the
synchronous handlers (event_handler.py lines 131-149 and 227-247).
`elapsed i` is the elapsed time the i-th while-test observes, `obs i`
the directory listing that iteration would see.  Returns the loop's
boolean result together with the iteration indices actually polled.
The fuel bounds the recursion; `timeout + 1` units suffice whenever
each iteration consumes at least one time unit. -/
def shotLogLoop (timeout : Nat) (elapsed : Nat → Nat) (obs : Nat → List DirEntry) :
    Nat → Nat → Bool × List Nat
  | _, 0 => (false, [])
  | i, fuel + 1 =>
    if elapsed i < timeout then
      if iterFindsShotLog (obs i) then (true, [i])
      else
        let r := shotLogLoop timeout elapsed obs (i + 1) fuel
        (r.1, i :: r.2)
    else (false, [])

/-- Python `timeout = timeout or self.validation_timeout`: a falsy
argument (`None`, or `0`) is replaced by the constructor-supplied
`validation_timeout`. -/
def effectiveTimeout (validation_timeout : Nat) : Option Nat → Nat
  | some t => if t = 0 then validation_timeout else t
  | none => validation_timeout

/-- `LastShotEventHandler.validate` / `TestDataEventHandler.validate`
(event_handler.py lines 112-149 and 206-247): directory test,
existence test, then the timeout-bounded `ShotLog.json` poll; the
iterations polled are also reported. -/
def handlerValidateFull (validation_timeout : Nat) (timeoutArg : Option Nat)
    (event : PEvent) (dirExists : Bool)
    (elapsed : Nat → Nat) (obs : Nat → List DirEntry) : Bool × List Nat :=
  let timeout := effectiveTimeout validation_timeout timeoutArg
  if !event.is_directory then (false, [])
  else if !dirExists then (false, [])
  else shotLogLoop timeout elapsed obs 0 (timeout + 1)

/-- The boolean that `validate` returns. -/
def handlerValidate (validation_timeout : Nat) (timeoutArg : Option Nat)
    (event : PEvent) (dirExists : Bool)
    (elapsed : Nat → Nat) (obs : Nat → List DirEntry) : Bool :=
  (handlerValidateFull validation_timeout timeoutArg event dirExists elapsed obs).1

/-- A validator call that returned `(True, info)`. -/
def isAccepted : Except String (Bool × Dict) → Bool
  | .ok (true, _) => true
  | _ => false

/-- `pat` occurs as a contiguous substring of `s`. -/
def ContainsSubstr (s pat : String) : Prop :=
  ∃ a b : String, s = a ++ pat ++ b

/-! ### Spec-side ordered-check pipeline for `FileValidator.validate`

The spec describes `FileValidator.validate` as an ordered list of
checks — existence, regular file, name pattern over the basename,
creation-time range, modified-time range, file-size range — where the
first failing check supplies the rejection reason and later checks are
not evaluated.  The following definitions state that reading; each
check function consults only the data its own check needs. -/

/-- Spec-side: the existence check's failure reason, if it fails. -/
def existenceReason (fs : FS) (p : String) : Option String :=
  match fs p with
  | none => some s!"Path {p} does not exist."
  | some _ => none

/-- Spec-side: the regular-file check's failure reason. -/
def regularFileReason (fs : FS) (p : String) : Option String :=
  match fs p with
  | none => none
  | some st => if st.is_file then none else some s!"Path {p} is not a file."

/-- Spec-side: the name-pattern check's failure reason; it looks only
at the configured pattern and the basename of `p`. -/
def nameReason (v : BaseValidator) (p : String) : Option String :=
  match v.name_pattern with
  | some np =>
    if np.search (pathName p) then none
    else
      let name := pathName p
      let pat := np.pattern
      some s!"Name {name} does not match pattern {pat}."
  | none => none

/-- Spec-side: the creation-time range check's failure reason. -/
def creationReason (v : BaseValidator) (fs : FS) (p : String) : Option String :=
  match fs p with
  | none => none
  | some st =>
    let creation_time := st.st_birthtime.getD st.st_ctime
    let maxReason : Option String :=
      match v.creation_date_max with
      | some mx =>
        if creation_time > mx then
          some s!"Creation time {creation_time} is after maximum allowed {mx}."
        else none
      | none => none
    match v.creation_date_min with
    | some mn =>
      if creation_time < mn then
        some s!"Creation time {creation_time} is before minimum allowed {mn}."
      else maxReason
    | none => maxReason

/-- Spec-side: the modified-time range check's failure reason. -/
def modifiedReason (v : BaseValidator) (fs : FS) (p : String) : Option String :=
  match fs p with
  | none => none
  | some st =>
    let modified_time := st.st_mtime
    let maxReason : Option String :=
      match v.modified_date_max with
      | some mx =>
        if modified_time > mx then
          some s!"Modified time {modified_time} is after maximum allowed {mx}."
        else none
      | none => none
    match v.modified_date_min with
    | some mn =>
      if modified_time < mn then
        some s!"Modified time {modified_time} is before minimum allowed {mn}."
      else maxReason
    | none => maxReason

/-- Spec-side: the file-size range check's failure reason. -/
def sizeReason (v : FileValidator) (fs : FS) (p : String) : Option String :=
  match fs p with
  | none => none
  | some st =>
    let filesize := st.st_size
    let maxReason : Option String :=
      match v.filesize_max with
      | some mx =>
        if filesize > mx then
          some s!"Filesize {filesize} is greater than maximum allowed {mx}."
        else none
      | none => none
    match v.filesize_min with
    | some mn =>
      if filesize < mn then
        some s!"Filesize {filesize} is less than minimum allowed {mn}."
      else maxReason
    | none => maxReason

/-- Spec-side: the checks of `FileValidator.validate` in the order the
spec lists them. -/
def fileCheckList (v : FileValidator) (fs : FS) (p : String) : List (Option String) :=
  [existenceReason fs p, regularFileReason fs p, nameReason v.toBaseValidator p,
   creationReason v.toBaseValidator fs p, modifiedReason v.toBaseValidator fs p,
   sizeReason v fs p]

/-- Spec-side: the first failing check's reason, if any check fails. -/
def firstFailReason (v : FileValidator) (fs : FS) (p : String) : Option String :=
  List.findSome? id (fileCheckList v fs p)

/-- Spec-side: the attribute dict produced on full success. -/
def fileSuccessInfo (v : FileValidator) (fs : FS) (p : String) : Dict :=
  match fs p with
  | none => Dict.empty
  | some st =>
    let base : Dict :=
      match v.name_pattern with
      | some _ => Dict.empty.insert "name_valid" (.vbool true)
      | none => Dict.empty
    let base := base.insert "creation_time" (.vtime (st.st_birthtime.getD st.st_ctime))
    let base := base.insert "modified_time" (.vtime st.st_mtime)
    (Dict.update Dict.empty base).insert "filesize" (.vint st.st_size)

/-- Spec-side reading of `FileValidator.validate`: reject with the
first failing check's reason, else accept with the success
attributes. -/
def fileValidatePipeline (v : FileValidator) (fs : FS) (p : String) :
    Except String (Bool × Dict) :=
  match firstFailReason v fs p with
  | some msg => .ok (false, errDict msg)
  | none => .ok (true, fileSuccessInfo v fs p)

/-- The attribute dict `validate_common` returns on success. -/
def commonSuccessInfo (v : BaseValidator) (st : FileStat) : Dict :=
  let base : Dict :=
    match v.name_pattern with
    | some _ => Dict.empty.insert "name_valid" (.vbool true)
    | none => Dict.empty
  (base.insert "creation_time" (.vtime (st.st_birthtime.getD st.st_ctime))).insert
    "modified_time" (.vtime st.st_mtime)

set_option maxHeartbeats 1000000 in
/-- Characterisation of `validate_common` on an existing path: it fails
with the name reason, else the creation-time reason, else the
modified-time reason, else succeeds with the common attribute dict. -/
theorem validate_common_eq_reasons (v : BaseValidator) (fs : FS) (p : String)
    (st : FileStat) (hfs : fs p = some st) :
    v.validate_common fs p =
      (match nameReason v p with
       | some m => .ok (false, errDict m)
       | none =>
         match creationReason v fs p with
         | some m => .ok (false, errDict m)
         | none =>
           match modifiedReason v fs p with
           | some m => .ok (false, errDict m)
           | none => .ok (true, commonSuccessInfo v st)) := by
  obtain ⟨npat, cmin, cmax, mmin, mmax⟩ := v
  unfold BaseValidator.validate_common nameReason creationReason modifiedReason
    commonSuccessInfo
  simp only [hfs]
  rcases npat with _ | np
  case none =>
    rcases cmin with _ | cmn <;> rcases cmax with _ | cmx <;>
      rcases mmin with _ | mmn <;> rcases mmax with _ | mmx
    all_goals (first | rfl | (dsimp only; split_ifs <;> rfl))
  case some =>
    dsimp only
    cases hnp : np.search (pathName p)
    case false => simp [hnp]
    case true =>
      simp only [hnp, Bool.not_true]
      rcases cmin with _ | cmn <;> rcases cmax with _ | cmx <;>
        rcases mmin with _ | mmn <;> rcases mmax with _ | mmx
      all_goals (first | rfl | (dsimp only; split_ifs <;> (first | rfl | simp_all)))

set_option maxHeartbeats 1000000 in
/-- C3: `FileValidator.validate` applies, in order, the existence
check, the regular-file check, the name-pattern check over the
basename, the creation-time range check, the modified-time range
check, and the file-size range check; the first failing check supplies
the rejection reason and no later check is consulted.  Formally,
`validate` coincides with the spec-side first-failing-check pipeline
`fileValidatePipeline` over `fileCheckList`, whose check functions each
consult only their own check's data. -/
theorem claim_C3 (v : FileValidator) (fs : FS) (p : String) :
    v.validate fs p = fileValidatePipeline v fs p := by
  unfold FileValidator.validate fileValidatePipeline firstFailReason fileCheckList
  cases hfs : fs p with
  | none => simp [existenceReason, hfs]
  | some st =>
    rw [validate_common_eq_reasons v.toBaseValidator fs p st hfs]
    simp only [existenceReason, regularFileReason, hfs, List.findSome?_cons,
      List.findSome?_nil, id_eq]
    cases hf : st.is_file
    case false => simp
    case true =>
      simp only [Bool.not_true, if_true, if_false]
      try dsimp only
      cases hname : nameReason v.toBaseValidator p <;>
        cases hcr : creationReason v.toBaseValidator fs p <;>
        cases hmod : modifiedReason v.toBaseValidator fs p <;>
        (try dsimp only)
      all_goals try rfl
      unfold sizeReason fileSuccessInfo commonSuccessInfo
      simp only [hfs]
      obtain ⟨⟨npat, cmin, cmax, mmin, mmax⟩, fmin, fmax⟩ := v
      rcases fmin with _ | fmn <;> rcases fmax with _ | fmx <;>
        all_goals (first | rfl | (dsimp only; split_ifs <;> (first | rfl | simp_all)))

/-- Every iteration of the processor loop issues exactly one
`task_done`, whichever branch it exits through. -/
theorem processOne_task_done (pr : EventProcessor) (event : PEvent) :
    (pr.processOne event).2 = 1 := by
  unfold EventProcessor.processOne
  rcases hv : pr.validator with _ | vf <;> simp only [hv] <;>
    (repeat' split) <;> rfl

/-- Unrolling of the `process_events` fold: puts concatenate in
arrival order and each event contributes one `task_done`. -/
theorem foldl_process (pr : EventProcessor) :
    ∀ (events : List PEvent) (acc : List String × Nat),
      List.foldl (fun acc event =>
        let r := pr.processOne event
        (acc.1 ++ r.1, acc.2 + r.2)) acc events
        = (acc.1 ++ (events.map fun e => (pr.processOne e).1).flatten,
           acc.2 + events.length)
  | [], acc => by simp
  | e :: es, acc => by
    simp only [List.foldl_cons, List.map_cons, List.flatten]
    rw [foldl_process pr es]
    simp [processOne_task_done, List.append_assoc]
    omega

theorem flatten_map_singleton {α β : Type} (f : α → β) :
    ∀ l : List α, (l.map fun a => [f a]).flatten = l.map f
  | [] => rfl
  | a :: l => by simp [List.flatten, flatten_map_singleton f l]

/-- C1: for every dequeued event, if a validator is configured and its
`validate` call on the event's source path returns not-accepted, the
event-processor iteration puts no item into the task-queue buffer for
that event: the event is discarded. -/
theorem claim_C1 (pr : EventProcessor) (event : PEvent)
    (vf : String → Bool × Dict) (hv : pr.validator = some vf)
    (hrej : (vf event.src_path).1 = false) :
    (pr.processOne event).1 = [] := by
  unfold EventProcessor.processOne
  rw [hv]
  simp [hrej]

def vfReject : String → Bool × Dict := fun _ => (false, Dict.empty)

theorem claim_C1_witness :
    (EventProcessor.processOne ⟨some vfReject, true, 0⟩ ⟨"/data/a.txt", false⟩).1 = [] :=
  claim_C1 ⟨some vfReject, true, 0⟩ ⟨"/data/a.txt", false⟩ vfReject rfl rfl

/-- C2: every event dequeued by the processor loop is marked consumed
with exactly one `task_done` call, on every exit branch of the
iteration (validation failure, no output buffer configured, successful
enqueue); hence a run over any finite event list issues exactly one
`task_done` per event. -/
theorem claim_C2 (pr : EventProcessor) :
    (∀ event, (pr.processOne event).2 = 1) ∧
    (∀ events : List PEvent, (pr.process_events events).2 = events.length) := by
  refine ⟨processOne_task_done pr, fun events => ?_⟩
  unfold EventProcessor.process_events
  rw [foldl_process]
  simp

/-- C8: an event processor configured with `process_delay = 0` and no
validator forwards each dequeued event's source path verbatim to the
task queue, and the task-queue order equals the arrival order of the
events. -/
theorem claim_C8 (pr : EventProcessor) (events : List PEvent)
    (hv : pr.validator = none) (hb : pr.has_buffer = true)
    (_hd : pr.process_delay = 0) :
    (pr.process_events events).1 = events.map PEvent.src_path := by
  unfold EventProcessor.process_events
  rw [foldl_process]
  have hone : ∀ e : PEvent, (pr.processOne e).1 = [e.src_path] := by
    intro e
    unfold EventProcessor.processOne
    simp [hv, hb, Dict.get?, Dict.empty, Value.pyStr, List.lookup]
  simp only [hone]
  simp [flatten_map_singleton]

theorem claim_C8_witness :
    (EventProcessor.process_events ⟨none, true, 0⟩
      [⟨"/w/a", false⟩, ⟨"/w/b", true⟩, ⟨"/w/a", false⟩]).1 = ["/w/a", "/w/b", "/w/a"] :=
  claim_C8 ⟨none, true, 0⟩ [⟨"/w/a", false⟩, ⟨"/w/b", true⟩, ⟨"/w/a", false⟩] rfl rfl rfl

/-- C6: for every successfully validated event with an output buffer
configured, the processor enqueues the override path found in the
validator's attribute map under the reserved key `new_folder` when
that key is present, and otherwise the original event's source path;
the enqueued item is the `str()` form of that value. -/
theorem claim_C6 (pr : EventProcessor) (event : PEvent)
    (vf : String → Bool × Dict) (info : Dict)
    (hv : pr.validator = some vf) (hb : pr.has_buffer = true)
    (hval : vf event.src_path = (true, info)) :
    (∀ val, info.get? "new_folder" = some val →
      (pr.processOne event).1 = [val.pyStr]) ∧
    (info.get? "new_folder" = none →
      (pr.processOne event).1 = [event.src_path]) := by
  constructor
  · intro val hget
    unfold EventProcessor.processOne
    simp [hv, hval, hb, hget]
  · intro hget
    unfold EventProcessor.processOne
    simp [hv, hval, hb, hget, Value.pyStr]

def vfOverride : String → Bool × Dict :=
  fun _ => (true, Dict.empty.insert "new_folder" (.vstr "/override/target"))

def vfPlain : String → Bool × Dict := fun _ => (true, Dict.empty)

theorem claim_C6_witness :
    (EventProcessor.processOne ⟨some vfOverride, true, 0⟩ ⟨"/d/ev", false⟩).1
        = ["/override/target"] ∧
    (EventProcessor.processOne ⟨some vfPlain, true, 0⟩ ⟨"/d/ev", false⟩).1
        = ["/d/ev"] := by
  constructor
  · exact (claim_C6 ⟨some vfOverride, true, 0⟩ ⟨"/d/ev", false⟩ vfOverride
      (Dict.empty.insert "new_folder" (.vstr "/override/target")) rfl rfl rfl).1
      (.vstr "/override/target") rfl
  · exact (claim_C6 ⟨some vfPlain, true, 0⟩ ⟨"/d/ev", false⟩ vfPlain
      Dict.empty rfl rfl rfl).2 rfl

/-- Unrolling of `CompositeValidator.validate` on a two-element chain. -/
theorem composite_validate_two (v1 v2 : ValidatorFun) (fs : FS) (p : String) :
    CompositeValidator.validate [v1, v2] fs p =
      (match v1 fs p with
       | .error e => .error e
       | .ok (false, i1) => .ok (false, i1)
       | .ok (true, i1) =>
         match v2 fs p with
         | .error e => .error e
         | .ok (false, i2) => .ok (false, i2)
         | .ok (true, i2) => .ok (true, (Dict.empty.update i1).update i2)) := by
  simp only [CompositeValidator.validate, CompositeValidator.validateFrom]

/-- C4: a two-validator composite accepts exactly when both members
accept; when the first member rejects, the second is never consulted
(the outcome is the same for every second member) and the composite
returns the first member's failure result; on full success the
composite returns the merge of both attribute maps, the second
validator's keys overwriting the first's on collision. -/
theorem claim_C4 (v1 v2 : ValidatorFun) (fs : FS) (p : String) :
    (isAccepted (CompositeValidator.validate [v1, v2] fs p) = true ↔
      isAccepted (v1 fs p) = true ∧ isAccepted (v2 fs p) = true) ∧
    (∀ i1 : Dict, v1 fs p = .ok (false, i1) →
      ∀ v2a : ValidatorFun,
        CompositeValidator.validate [v1, v2a] fs p = .ok (false, i1)) ∧
    (∀ i1 i2 : Dict, v1 fs p = .ok (true, i1) → v2 fs p = .ok (true, i2) →
      CompositeValidator.validate [v1, v2] fs p =
        .ok (true, (Dict.empty.update i1).update i2)) := by
  refine ⟨?_, ?_, ?_⟩
  · rw [composite_validate_two]
    rcases h1 : v1 fs p with e1 | ⟨b1, i1⟩ <;>
      rcases h2 : v2 fs p with e2 | ⟨b2, i2⟩ <;>
      (try cases b1) <;> (try cases b2) <;> simp [isAccepted]
  · intro i1 h1 v2a
    rw [composite_validate_two]
    simp [h1]
  · intro i1 i2 h1 h2
    rw [composite_validate_two]
    simp [h1, h2]

def cvA : ValidatorFun := fun _ _ => .ok (true, Dict.empty.insert "a" (.vint 1))

def cvB : ValidatorFun := fun _ _ => .ok (true, Dict.empty.insert "b" (.vint 2))

def cvRej : ValidatorFun := fun _ _ => .ok (false, errDict "nope")

def fsEmpty : FS := fun _ => none

theorem claim_C4_witness :
    (isAccepted (CompositeValidator.validate [cvA, cvB] fsEmpty "/p") = true ↔
      isAccepted (cvA fsEmpty "/p") = true ∧ isAccepted (cvB fsEmpty "/p") = true) ∧
    CompositeValidator.validate [cvRej, cvB] fsEmpty "/p" = .ok (false, errDict "nope") ∧
    CompositeValidator.validate [cvA, cvB] fsEmpty "/p" =
      .ok (true, (Dict.empty.update (Dict.empty.insert "a" (.vint 1))).update
        (Dict.empty.insert "b" (.vint 2))) := by
  refine ⟨(claim_C4 cvA cvB fsEmpty "/p").1, ?_, ?_⟩
  · exact (claim_C4 cvRej cvB fsEmpty "/p").2.1 (errDict "nope") rfl cvB
  · exact (claim_C4 cvA cvB fsEmpty "/p").2.2
      (Dict.empty.insert "a" (.vint 1)) (Dict.empty.insert "b" (.vint 2)) rfl rfl

/-- C10: a composite validator constructed with an empty validator
list accepts every path with an empty attribute map, and its result
does not depend on the filesystem at all. -/
theorem claim_C10 (fs : FS) (p : String) :
    CompositeValidator.validate [] fs p = .ok (true, Dict.empty) ∧
    ∀ fs2 : FS, CompositeValidator.validate [] fs p =
      CompositeValidator.validate [] fs2 p := by
  exact ⟨rfl, fun fs2 => rfl⟩

/-- Substring containment through an explicit three-way split. -/
theorem containsSubstr_append3 (x y z : String) : ContainsSubstr (x ++ y ++ z) y :=
  ⟨x, z, rfl⟩

set_option maxHeartbeats 800000 in
/-- C5: on an existing regular file whose common checks pass, with both
size bounds configured, `FileValidator.validate` rejects with a reason
containing "less than minimum" when the size is strictly below the
minimum, rejects with a reason containing "greater than maximum" when
strictly above the maximum, and accepts whenever the size lies in the
closed interval from the minimum to the maximum. -/
theorem claim_C5 (v : FileValidator) (fs : FS) (p : String) (st : FileStat)
    (mn mx : Int) (ci : Dict)
    (hfs : fs p = some st) (hf : st.is_file = true) (hbounds : mn ≤ mx)
    (hmin : v.filesize_min = some mn) (hmax : v.filesize_max = some mx)
    (hcommon : v.toBaseValidator.validate_common fs p = .ok (true, ci)) :
    (st.st_size < mn →
      v.validate fs p = .ok (false, errDict
        ("Filesize " ++ toString st.st_size ++ " is less than minimum allowed "
          ++ toString mn ++ ".")) ∧
      ContainsSubstr
        ("Filesize " ++ toString st.st_size ++ " is less than minimum allowed "
          ++ toString mn ++ ".") "less than minimum") ∧
    (st.st_size > mx →
      v.validate fs p = .ok (false, errDict
        ("Filesize " ++ toString st.st_size ++ " is greater than maximum allowed "
          ++ toString mx ++ ".")) ∧
      ContainsSubstr
        ("Filesize " ++ toString st.st_size ++ " is greater than maximum allowed "
          ++ toString mx ++ ".") "greater than maximum") ∧
    (mn ≤ st.st_size → st.st_size ≤ mx →
      isAccepted (v.validate fs p) = true) := by
  have hval : v.validate fs p =
      (let filesize := st.st_size
       if filesize < mn then
         .ok (false, errDict
           ("Filesize " ++ toString filesize ++ " is less than minimum allowed "
             ++ toString mn ++ "."))
       else if filesize > mx then
         .ok (false, errDict
           ("Filesize " ++ toString filesize ++ " is greater than maximum allowed "
             ++ toString mx ++ "."))
       else
         .ok (true, ((Dict.update Dict.empty ci).insert "filesize" (.vint st.st_size)))) := by
    unfold FileValidator.validate
    simp only [hfs, hf, hcommon, hmin, hmax, Bool.not_true]
    split_ifs <;> (first | rfl | simp_all)
  refine ⟨fun hlt => ⟨?_, ?_⟩, fun hgt => ⟨?_, ?_⟩, fun h1 h2 => ?_⟩
  · rw [hval]
    simp [hlt]
  · have hsplit : (" is less than minimum allowed " : String) =
        " is " ++ "less than minimum" ++ " allowed " := by decide
    have heq : ("Filesize " ++ toString st.st_size ++ " is less than minimum allowed "
        ++ toString mn ++ ".") =
        ("Filesize " ++ toString st.st_size ++ " is ") ++ "less than minimum"
          ++ (" allowed " ++ toString mn ++ ".") := by
      rw [hsplit]
      simp only [String.append_assoc]
    rw [heq]
    exact containsSubstr_append3 _ _ _
  · rw [hval]
    have hnlt : ¬ st.st_size < mn := by omega
    simp [hnlt, hgt]
  · have hsplit : (" is greater than maximum allowed " : String) =
        " is " ++ "greater than maximum" ++ " allowed " := by decide
    have heq : ("Filesize " ++ toString st.st_size ++ " is greater than maximum allowed "
        ++ toString mx ++ ".") =
        ("Filesize " ++ toString st.st_size ++ " is ") ++ "greater than maximum"
          ++ (" allowed " ++ toString mx ++ ".") := by
      rw [hsplit]
      simp only [String.append_assoc]
    rw [heq]
    exact containsSubstr_append3 _ _ _
  · rw [hval]
    have hnlt : ¬ st.st_size < mn := by omega
    have hngt : ¬ st.st_size > mx := by omega
    simp [hnlt, hngt, isAccepted]

def fvSize : FileValidator := ⟨⟨none, none, none, none, none⟩, some 10, some 20⟩

def stSmall : FileStat := ⟨true, false, some 5, 5, 6, 3⟩

def fsSmall : FS := fun q => if q = "/w/report.txt" then some stSmall else none

def ciSmall : Dict :=
  (Dict.empty.insert "creation_time" (.vtime 5)).insert "modified_time" (.vtime 6)

theorem claim_C5_witness :
    FileValidator.validate fvSize fsSmall "/w/report.txt" = .ok (false, errDict
      ("Filesize " ++ toString stSmall.st_size ++ " is less than minimum allowed "
        ++ toString (10 : Int) ++ ".")) :=
  ((claim_C5 fvSize fsSmall "/w/report.txt" stSmall 10 20 ciSmall rfl rfl (by decide)
      rfl rfl rfl).1 (by decide)).1

/-- C7: when a path does not exist at validation time, both
`FileValidator.validate` and `FolderValidator.validate` return a
structured not-accepted result whose failure reason reports the
missing path, and neither validator ever lets a different, unvalidated
error escape instead of returning a structured result. -/
theorem claim_C7 (fs : FS) (p : String) (hne : fs p = none) :
    ∀ (fv : FileValidator) (dv : FolderValidator),
      fv.validate fs p = .ok (false, errDict ("Path " ++ p ++ " does not exist.")) ∧
      dv.validate fs p = .ok (false, errDict ("Path " ++ p ++ " does not exist.")) ∧
      ContainsSubstr ("Path " ++ p ++ " does not exist.") p ∧
      (∀ (fs2 : FS) (q : String), ∃ r, fv.validate fs2 q = .ok r) ∧
      (∀ (fs2 : FS) (q : String), ∃ r, dv.validate fs2 q = .ok r) := by
  intro fv dv
  refine ⟨?_, ?_, ⟨"Path ", " does not exist.", rfl⟩, ?_, ?_⟩
  · unfold FileValidator.validate
    simp only [hne]
    rfl
  · unfold FolderValidator.validate
    simp only [hne]
    rfl
  · intro fs2 q
    unfold FileValidator.validate
    cases hq : fs2 q with
    | none => exact ⟨_, rfl⟩
    | some st =>
      rw [validate_common_eq_reasons fv.toBaseValidator fs2 q st hq]
      cases hn : nameReason fv.toBaseValidator q <;>
        cases hc : creationReason fv.toBaseValidator fs2 q <;>
        cases hm : modifiedReason fv.toBaseValidator fs2 q <;>
        (try dsimp only) <;>
        (repeat' split) <;> exact ⟨_, rfl⟩
  · intro fs2 q
    unfold FolderValidator.validate
    cases hq : fs2 q with
    | none => exact ⟨_, rfl⟩
    | some st =>
      rw [validate_common_eq_reasons dv.toBaseValidator fs2 q st hq]
      cases hn : nameReason dv.toBaseValidator q <;>
        cases hc : creationReason dv.toBaseValidator fs2 q <;>
        cases hm : modifiedReason dv.toBaseValidator fs2 q <;>
        (try dsimp only) <;>
        (repeat' split) <;> exact ⟨_, rfl⟩

def fvTrivial : FileValidator := ⟨⟨none, none, none, none, none⟩, none, none⟩

def dvTrivial : FolderValidator := ⟨⟨none, none, none, none, none⟩⟩

theorem claim_C7_witness :
    FileValidator.validate fvTrivial fsEmpty "/gone/file.txt" =
      .ok (false, errDict ("Path " ++ "/gone/file.txt" ++ " does not exist.")) ∧
    FolderValidator.validate dvTrivial fsEmpty "/gone/file.txt" =
      .ok (false, errDict ("Path " ++ "/gone/file.txt" ++ " does not exist.")) :=
  ⟨(claim_C7 fsEmpty "/gone/file.txt" rfl fvTrivial dvTrivial).1,
   (claim_C7 fsEmpty "/gone/file.txt" rfl fvTrivial dvTrivial).2.1⟩

/-- Every iteration the polling loop actually examines happens at an
elapsed time strictly below the timeout. -/
theorem shotLogLoop_polls_bounded (timeout : Nat) (elapsed : Nat → Nat)
    (obs : Nat → List DirEntry) :
    ∀ (fuel i j : Nat), j ∈ (shotLogLoop timeout elapsed obs i fuel).2 →
      elapsed j < timeout := by
  intro fuel
  induction fuel with
  | zero => intro i j h; simp [shotLogLoop] at h
  | succ n ih =>
    intro i j h
    unfold shotLogLoop at h
    by_cases he : elapsed i < timeout
    · simp only [he, if_true] at h
      by_cases hfind : iterFindsShotLog (obs i) = true
      · simp only [hfind, if_true] at h
        simp at h
        exact h ▸ he
      · simp only [Bool.not_eq_true] at hfind
        simp only [hfind] at h
        simp at h
        rcases h with h | h
        · exact h ▸ he
        · exact ih (i + 1) j h
    · simp only [he, if_false] at h
      simp at h

/-- If the loop returns true, some polled iteration found a nonempty
`ShotLog.json` while the elapsed time was below the timeout. -/
theorem shotLogLoop_true_finds (timeout : Nat) (elapsed : Nat → Nat)
    (obs : Nat → List DirEntry) :
    ∀ (fuel i : Nat), (shotLogLoop timeout elapsed obs i fuel).1 = true →
      ∃ j, elapsed j < timeout ∧ iterFindsShotLog (obs j) = true := by
  intro fuel
  induction fuel with
  | zero => intro i h; simp [shotLogLoop] at h
  | succ n ih =>
    intro i h
    unfold shotLogLoop at h
    by_cases he : elapsed i < timeout
    · simp only [he, if_true] at h
      by_cases hfind : iterFindsShotLog (obs i) = true
      · exact ⟨i, he, hfind⟩
      · simp only [Bool.not_eq_true] at hfind
        simp only [hfind] at h
        simp at h
        exact ih (i + 1) h
    · simp only [he, if_false] at h
      simp at h

/-- If no iteration within the timeout window finds a nonempty
`ShotLog.json`, the loop returns false. -/
theorem shotLogLoop_fail_closed (timeout : Nat) (elapsed : Nat → Nat)
    (obs : Nat → List DirEntry)
    (hnone : ∀ j, elapsed j < timeout → iterFindsShotLog (obs j) = false) :
    ∀ (fuel i : Nat), (shotLogLoop timeout elapsed obs i fuel).1 = false := by
  intro fuel
  induction fuel with
  | zero => intro i; simp [shotLogLoop]
  | succ n ih =>
    intro i
    unfold shotLogLoop
    by_cases he : elapsed i < timeout
    · simp only [he, if_true, hnone i he]
      simpa using ih (i + 1)
    · simp [he]

/-- C9 (amended): the synchronous handlers' directory-polling
`validate` is bounded by the effective timeout — the supplied timeout
when it is nonzero, else the handler's `validation_timeout`, mirroring
Python's `timeout = timeout or self.validation_timeout`.  Every polled
iteration happens at an elapsed time strictly below the effective
timeout; a true result requires a nonempty `ShotLog.json` observed
within that window; and when no iteration within the window finds one,
`validate` terminates with a rejection (fail closed). -/
theorem claim_C9 (validation_timeout : Nat) (timeoutArg : Option Nat)
    (event : PEvent) (dirExists : Bool)
    (elapsed : Nat → Nat) (obs : Nat → List DirEntry) :
    (∀ j, j ∈ (handlerValidateFull validation_timeout timeoutArg event dirExists
        elapsed obs).2 →
      elapsed j < effectiveTimeout validation_timeout timeoutArg) ∧
    (handlerValidate validation_timeout timeoutArg event dirExists elapsed obs = true →
      ∃ j, elapsed j < effectiveTimeout validation_timeout timeoutArg ∧
        iterFindsShotLog (obs j) = true) ∧
    ((∀ j, elapsed j < effectiveTimeout validation_timeout timeoutArg →
        iterFindsShotLog (obs j) = false) →
      handlerValidate validation_timeout timeoutArg event dirExists elapsed obs = false) := by
  unfold handlerValidate handlerValidateFull
  cases hd : event.is_directory
  case false => simp
  case true =>
    cases hx : dirExists
    case false => simp
    case true =>
      simp only [Bool.not_true, Bool.not_false, if_false, if_true]
      refine ⟨?_, ?_, ?_⟩
      · intro j hj
        exact shotLogLoop_polls_bounded _ elapsed obs _ 0 j (by simpa using hj)
      · intro h
        exact shotLogLoop_true_finds _ elapsed obs _ 0 (by simpa using h)
      · intro hnone
        simpa using shotLogLoop_fail_closed _ elapsed obs hnone _ 0

theorem claim_C9_witness :
    handlerValidate 2 none ⟨"/data/run1", true⟩ true (fun i => i) (fun _ => []) = false :=
  (claim_C9 2 none ⟨"/data/run1", true⟩ true (fun i => i) (fun _ => [])).2.2
    (fun _ _ => rfl)

/-- The C9 claim exactly as the spec states it: for every supplied
timeout value, a true result requires a nonempty `ShotLog.json` found
at an elapsed time strictly below the supplied timeout itself. -/
def claimC9Stated : Prop :=
  ∀ (validation_timeout t : Nat) (event : PEvent) (dirExists : Bool)
    (elapsed : Nat → Nat) (obs : Nat → List DirEntry),
    handlerValidate validation_timeout (some t) event dirExists elapsed obs = true →
    ∃ j, elapsed j < t ∧ iterFindsShotLog (obs j) = true

/-- C9 counterexample: with supplied timeout 0, Python's
`timeout or self.validation_timeout` replaces the falsy 0 by the
default (2 here), so the handler polls at elapsed times not below the
supplied timeout and can even accept — refuting the claim as stated. -/
theorem claim_C9_counterexample : ¬ claimC9Stated := by
  intro h
  obtain ⟨j, hj, _⟩ :=
    h 2 0 ⟨"/data/run1", true⟩ true (fun i => i)
      (fun _ => [⟨"ShotLog.json", some "x"⟩]) rfl
  exact absurd hj (Nat.not_lt_zero j)
